import Mathlib

/-!
Shallow embedding of the churchtalk backend (FastAPI + SQLAlchemy) core:
token issuance/verification (`app/auth_utils.py`), signup paths
(`app/routers/auth.py`, `app/routers/members.py`), the ownership guard and
news CRUD/pagination (`app/routers/news.py`), and membership join
(`app/routers/members.py`).

Modelling conventions:
* instants are naturals (seconds since epoch);
* the database session is an explicit `DB` value (lists of rows plus the
  id counters the backing store uses for primary keys); SQLAlchemy
  `query(...).filter(...).first()` becomes `List.find?`;
* `HTTPException(status_code=..., detail=...)` becomes an `HTTPException`
  value; an uncaught Python exception (one that is not an `HTTPException`)
  is the separate `Failure.pyValueError` outcome;
* `ORDER BY created_at DESC` carries no tiebreak in the source, so the row
  order the store returns is modelled relationally (`OrderedByCreatedAtDesc`):
  any permutation of the filtered rows that is weakly sorted by
  `created_at` descending.
-/

namespace ChurchTalk

/-- Seconds since epoch, as produced by `datetime.utcnow()`. -/
abbrev Instant := Nat

/-- Row of table `user` (`app/models.py`, class `User`). -/
structure User where
  id : Nat
  created_at : Instant
  name : String
  email : String
  password : String
  is_admin : Bool
  age : Option Nat
  gender : Option String
  phone : Option String
  address : Option String
  deriving Repr, DecidableEq

/-- Row of table `churches` (`app/models.py`, class `Church`). -/
structure Church where
  id : Nat
  created_at : Instant
  name : String
  address : Option String
  city : Option String
  state : Option String
  contact_number : Option String
  short_description : Option String
  logo : Option String
  created_by : Nat
  deriving Repr, DecidableEq

/-- Row of table `church_members` (`app/models.py`, class `ChurchMember`). -/
structure ChurchMember where
  id : Nat
  created_at : Instant
  user : Nat
  church : Nat
  joined_at : Instant
  deriving Repr, DecidableEq

/-- Row of table `news_admin` (`app/models.py`, class `NewsAdmin`). -/
structure NewsAdmin where
  id : Nat
  created_at : Instant
  title : String
  content : String
  image : Option String
  church_id : Nat
  created_by : Nat
  updated_at : Instant
  deriving Repr, DecidableEq

/-- The backing store: one list of rows per table, plus the monotone id
counters the store uses to assign primary keys on insert. -/
structure DB where
  users : List User
  churches : List Church
  church_members : List ChurchMember
  news_admin : List NewsAdmin
  next_user_id : Nat
  next_member_id : Nat
  deriving Repr, DecidableEq

/-- `fastapi.HTTPException(status_code=..., detail=...)`. -/
structure HTTPException where
  status_code : Nat
  detail : String
  deriving Repr, DecidableEq

/-- Outcome classification for request handlers: either an
`HTTPException` surfaced to the client, or an uncaught Python `ValueError`
(which FastAPI turns into a 500, not one of the designed outcomes). -/
inductive Failure where
  | http (e : HTTPException)
  | pyValueError
  deriving Repr, DecidableEq

/-! ### Ownership guard (`app/routers/news.py`, `ensure_church_owned`) -/

/-- `ensure_church_owned(db, church_id, admin_id)`: a single query filtered
by both `Church.id == church_id` and `Church.created_by == admin_id`;
when no row matches it raises 403. -/
def ensure_church_owned (db : DB) (church_id admin_id : Nat) :
    Except HTTPException Church :=
  match db.churches.find? (fun c => c.id == church_id && c.created_by == admin_id) with
  | some church => .ok church
  | none => .error
      { status_code := 403
        detail := "You are not authorized to manage news for this church." }

/-! ### Password hashing (`app/auth_utils.py`) -/

/-- `pwd_context.hash` with scheme pbkdf2_sha256. The KDF internals matter
to no claim here, so the hash is modelled as an injective tagged function;
what the claims use is only that the stored value is `hash_password` of
the plaintext, not the plaintext itself. -/
def hash_password (password : String) : String :=
  "pbkdf2-sha256$" ++ password

/-- `pwd_context.verify`. -/
def verify_password (plain_password hashed_password : String) : Bool :=
  hash_password plain_password == hashed_password

/-! ### Token service (`app/auth_utils.py`) -/

/-- `os.getenv("JWT_SECRET", "changeme")` with the variable unset: the
insecure hardcoded fallback. -/
def JWT_SECRET : String := "changeme"

/-- `os.getenv("JWT_ALGORITHM", "HS256")` fallback. -/
def JWT_ALGORITHM : String := "HS256"

/-- `os.getenv("JWT_ACCESS_TOKEN_EXPIRE_MINUTES", "1440")` fallback. -/
def JWT_ACCESS_TOKEN_EXPIRE_MINUTES : Nat := 1440

/-- The Python string values that can reach the JWT sub claim in this
code. `create_access_token` applies str() to its subject: an int subject
yields its decimal numeral (`numeral n`); the dict with key id passed by
`member_signup` yields the str() of that dict (`dictRepr n`), which is not
a numeral; `other` covers every remaining string. -/
inductive PyStr where
  | numeral (n : Nat)
  | dictRepr (id : Nat)
  | other (s : String)
  deriving Repr, DecidableEq

/-- Python int(s): succeeds exactly on a decimal numeral string and raises
ValueError (modelled as `none`) on the dict repr and on other
non-numeral strings. -/
def pyInt? : PyStr → Option Nat
  | .numeral n => some n
  | .dictRepr _ => none
  | .other _ => none

/-- The `subject` argument of `create_access_token`: annotated `str | int`
in the source, but `member_signup` actually passes the dict with key id. -/
inductive Subject where
  | int (n : Nat)
  | dict (id : Nat)
  deriving Repr, DecidableEq

/-- Python str(subject), as applied inside `create_access_token`. -/
def subjectStr : Subject → PyStr
  | .int n => .numeral n
  | .dict n => .dictRepr n

/-- The claim set `{"sub": ..., "exp": ...}` a JWT carries. -/
structure JWTPayload where
  sub : Option PyStr
  exp : Instant
  deriving Repr, DecidableEq

/-- A bearer token: either not a well-formed JWT at all, or a payload with
the signature string attached to it. -/
inductive Token where
  | malformed (raw : String)
  | signed (payload : JWTPayload) (sig : String)
  deriving Repr, DecidableEq

/-- Tag injection of a sub claim into the signed text. -/
def PyStr.tag : PyStr → String
  | .numeral n => "n" ++ Nat.repr n
  | .dictRepr n => "d" ++ Nat.repr n
  | .other s => "o" ++ s

/-- HMAC-SHA256 of the payload under the secret, modelled as an abstract
deterministic function of both: a signature verifies exactly when it was
produced from this payload with this secret. -/
def hmacSig (secret : String) (p : JWTPayload) : String :=
  "hmac:" ++ secret ++ ":" ++ Nat.repr p.exp ++ ":" ++
    (match p.sub with
     | none => "-"
     | some s => s.tag)

/-- `create_access_token(subject)`: payload carries sub = str(subject) and
exp = issuance time + configured TTL (minutes); signed with the
process-wide secret. The sum is written TTL-first (addition on `Nat` is
commutative) so terms normalise well. -/
def create_access_token (subject : Subject) (now : Instant) : Token :=
  let expire := JWT_ACCESS_TOKEN_EXPIRE_MINUTES * 60 + now
  .signed { sub := some (subjectStr subject), exp := expire }
    (hmacSig JWT_SECRET { sub := some (subjectStr subject), exp := expire })

/-- `jose.jwt.decode(token, secret, algorithms=[...])`: raises a JWTError
(modelled as `Except.error ()`) when the token is malformed, when the
signature does not verify under the secret, or when the exp claim lies in
the past; otherwise returns the payload. -/
def jwt_decode (t : Token) (secret : String) (now : Instant) :
    Except Unit JWTPayload :=
  match t with
  | .malformed _ => .error ()
  | .signed p sig =>
    if sig ≠ hmacSig secret p then .error ()
    else if p.exp < now then .error ()
    else .ok p

/-! ### Identity resolver (`app/auth_utils.py`, `get_current_user` /
`get_current_admin`) -/

/-- The single 401 value `get_current_user` raises. -/
def credentials_exception : HTTPException :=
  { status_code := 401, detail := "Invalid authentication credentials" }

/-- `get_current_user`: decode inside try/except JWTError (decode failure
maps to the 401); a missing sub raises the same 401 from inside the try
(an HTTPException is not a JWTError, so it propagates as itself); then
`int(user_id)` sits OUTSIDE the try, so a non-numeral sub raises an
uncaught ValueError; finally the user lookup by id, absent user mapping to
the same 401. -/
def get_current_user (token : Token) (db : DB) (now : Instant) :
    Except Failure User :=
  match jwt_decode token JWT_SECRET now with
  | .error _ => .error (.http credentials_exception)
  | .ok payload =>
    match payload.sub with
    | none => .error (.http credentials_exception)
    | some user_id =>
      match pyInt? user_id with
      | none => .error .pyValueError
      | some uid =>
        match db.users.find? (fun u => u.id == uid) with
        | none => .error (.http credentials_exception)
        | some user => .ok user

/-- `get_current_admin`: pure predicate gate on `is_admin` after
`get_current_user`. -/
def get_current_admin (token : Token) (db : DB) (now : Instant) :
    Except Failure User :=
  match get_current_user token db now with
  | .error e => .error e
  | .ok user =>
    if !user.is_admin then
      .error (.http { status_code := 403
                      detail := "You are not authorized to perform this action." })
    else .ok user

/-! ### Signup paths (`app/routers/auth.py`, `app/routers/members.py`) -/

/-- `schemas.UserCreate`: the admin signup body. -/
structure UserCreate where
  name : String
  email : String
  is_admin : Bool
  age : Option Nat
  gender : Option String
  phone : Option String
  address : Option String
  password : String
  deriving Repr, DecidableEq

/-- `schemas.MemberSignupRequest`. -/
structure MemberSignupRequest where
  name : String
  email : String
  password : String
  age : Option Nat
  gender : Option String
  phone : Option String
  address : Option String
  deriving Repr, DecidableEq

/-- `schemas.AdminSignupResponse`. -/
structure AdminSignupResponse where
  authToken : Token
  user : User
  deriving Repr, DecidableEq

/-- `schemas.MemberSignupResponse`. -/
structure MemberSignupResponse where
  auth_token : Token
  user : User
  deriving Repr, DecidableEq

/-- Python str.lower() (ASCII case mapping, which covers the emails
involved in the claims), acting charwise on the string's characters. -/
def pyLower (s : String) : String := String.mk (s.data.map Char.toLower)

/-- Python str.strip(): leading and trailing whitespace removed. -/
def pyStrip (s : String) : String :=
  String.mk (((s.data.dropWhile Char.isWhitespace).reverse.dropWhile
    Char.isWhitespace).reverse)

/-- `admin_signup` (`app/routers/auth.py`): the duplicate check and the
insert both use `payload.email` verbatim - no strip and no lower-casing -
and the token subject is the bare user id. -/
def admin_signup (payload : UserCreate) (db : DB) (now : Instant) :
    Except HTTPException AdminSignupResponse × DB :=
  match db.users.find? (fun u => u.email == payload.email) with
  | some _ =>
    (.error { status_code := 400, detail := "Email already registered" }, db)
  | none =>
    let user : User :=
      { id := db.next_user_id, created_at := now, name := payload.name
        email := payload.email, password := hash_password payload.password
        is_admin := true, age := payload.age, gender := payload.gender
        phone := payload.phone, address := payload.address }
    let db' := { db with users := db.users ++ [user]
                         next_user_id := db.next_user_id + 1 }
    (.ok { authToken := create_access_token (.int user.id) now, user := user }, db')

/-- `member_signup` (`app/routers/members.py`): email =
`payload.email.strip().lower()` is used for both the duplicate check and
the insert; `is_admin` is forced false; the token subject is the DICT with
key id (`create_access_token({"id": user.id})`), not the bare id. -/
def member_signup (payload : MemberSignupRequest) (db : DB) (now : Instant) :
    Except HTTPException MemberSignupResponse × DB :=
  let email := pyLower (pyStrip payload.email)
  match db.users.find? (fun u => u.email == email) with
  | some _ =>
    (.error { status_code := 400, detail := "Email already registered" }, db)
  | none =>
    let user : User :=
      { id := db.next_user_id, created_at := now, name := payload.name
        email := email, password := hash_password payload.password
        is_admin := false, age := payload.age, gender := payload.gender
        phone := payload.phone, address := payload.address }
    let db' := { db with users := db.users ++ [user]
                         next_user_id := db.next_user_id + 1 }
    (.ok { auth_token := create_access_token (.dict user.id) now, user := user }, db')

/-! ### Membership join (`app/routers/members.py`, `member_join_church`) -/

/-- `schemas.ChurchMemberOut`: the membership payload rendered in the join
response. -/
structure ChurchMemberOut where
  id : Nat
  user : Nat
  church : Nat
  created_at : Instant
  joined_at : Instant
  deriving Repr, DecidableEq

/-- `schemas.JoinChurchResponse`. -/
structure JoinChurchResponse where
  message : String
  joined : Bool
  membership : ChurchMemberOut
  deriving Repr, DecidableEq

/-- Render a `ChurchMember` row as the response payload dict. -/
def membershipOut (m : ChurchMember) : ChurchMemberOut :=
  { id := m.id, user := m.user, church := m.church
    created_at := m.created_at, joined_at := m.joined_at }

/-- `member_join_church`: (1) church existence check (404 if absent);
(2) membership pre-check on (user.id, church_id); (3) if found, report it
with joined=false and no mutation; (4) otherwise insert a row stamped with
`now` for both created_at and joined_at and report it with joined=true. -/
def member_join_church (church_id : Nat) (user : User) (db : DB) (now : Instant) :
    Except HTTPException JoinChurchResponse × DB :=
  match db.churches.find? (fun c => c.id == church_id) with
  | none => (.error { status_code := 404, detail := "Church not found." }, db)
  | some _ =>
    match db.church_members.find?
        (fun m => m.user == user.id && m.church == church_id) with
    | some membership =>
      (.ok { message := "Already a member of this church", joined := false
             membership := membershipOut membership }, db)
    | none =>
      let membership : ChurchMember :=
        { id := db.next_member_id, created_at := now, user := user.id
          church := church_id, joined_at := now }
      (.ok { message := "Joined church successfully", joined := true
             membership := membershipOut membership },
       { db with church_members := db.church_members ++ [membership]
                 next_member_id := db.next_member_id + 1 })

/-! ### News rendering and CRUD (`app/routers/news.py`) -/

/-- The Xano-like image metadata dict `build_image_meta` returns. -/
structure ImageMeta where
  access : String
  path : String
  name : Option String
  type : String
  size : Option Nat
  mime : Option String
  meta : Option String
  url : String
  deriving Repr, DecidableEq

/-- `build_image_meta(url)`: Python `if not url` treats both None and the
empty string as absent. -/
def build_image_meta (url : Option String) : Option ImageMeta :=
  match url with
  | none => none
  | some u =>
    if u = "" then none
    else some { access := "public", path := u, name := none, type := "image"
                size := none, mime := none, meta := none, url := u }

/-- `schemas.NewsOut`. -/
structure NewsOut where
  title : String
  content : String
  church_id : Nat
  id : Nat
  created_at : Instant
  updated_at : Instant
  created_by : Nat
  image : Option ImageMeta
  deriving Repr, DecidableEq

/-- The `NewsOut(...)` construction every news handler applies per row. -/
def newsOut (n : NewsAdmin) : NewsOut :=
  { id := n.id, title := n.title, content := n.content
    church_id := n.church_id, created_by := n.created_by
    created_at := n.created_at, updated_at := n.updated_at
    image := build_image_meta n.image }

/-- `schemas.NewsDeleteResponse`. -/
structure NewsDeleteResponse where
  message : String
  id : Nat
  deriving Repr, DecidableEq

/-- `delete_NewsAdmin` (`POST /news/delete`): lookup by id (404 if
absent), creator check (403 if the caller did not create it), then delete
exactly the found row. On either failure the store is untouched. -/
def delete_NewsAdmin (payload_id : Nat) (admin : User) (db : DB) :
    Except HTTPException NewsDeleteResponse × DB :=
  match db.news_admin.find? (fun n => n.id == payload_id) with
  | none => (.error { status_code := 404, detail := "News item not found." }, db)
  | some news =>
    if news.created_by ≠ admin.id then
      (.error { status_code := 403
                detail := "You are not authorized to delete this news item." }, db)
    else
      (.ok { message := "News item deleted successfully.", id := payload_id },
       { db with news_admin := db.news_admin.eraseP (fun n => n.id == payload_id) })

/-- `schemas.NewsListPayload`. -/
structure NewsListPayload where
  itemsReceived : Nat
  curPage : Nat
  nextPage : Option Nat
  prevPage : Option Nat
  offset : Nat
  perPage : Nat
  items : List NewsOut
  deriving Repr, DecidableEq

/-- `schemas.NewsListResponse`. -/
structure NewsListResponse where
  newsList : NewsListPayload
  limit : Nat
  offset : Nat
  deriving Repr, DecidableEq

/-- The filter of `get_NewsAdmin`'s base_query: news of this church
created by this admin. -/
def newsQuery (db : DB) (church_id admin_id : Nat) : List NewsAdmin :=
  db.news_admin.filter (fun n => n.church_id == church_id && n.created_by == admin_id)

/-- `ORDER BY created_at DESC` carries no tiebreak, so the row order is a
relation, not a function: the store may hand back any permutation of the
filtered rows that is weakly sorted by created_at descending. -/
def OrderedByCreatedAtDesc (rows ordered : List NewsAdmin) : Prop :=
  rows.Perm ordered ∧ ordered.Sorted (fun a b => b.created_at ≤ a.created_at)

/-- `get_NewsAdmin` (`GET /news/get-news`), given the row order `ordered`
the store chose for base_query (theorems constrain it by
`OrderedByCreatedAtDesc`): ownership check first, then count over the full
filtered collection, offset/limit window, and adjacent page pointers. -/
def get_NewsAdmin (db : DB) (ordered : List NewsAdmin)
    (church_id page per_page : Nat) (admin : User) :
    Except HTTPException NewsListResponse :=
  match ensure_church_owned db church_id admin.id with
  | .error e => .error e
  | .ok _ =>
    let total_count := ordered.length
    let offset := (page - 1) * per_page
    let items_db := (ordered.drop offset).take per_page
    let items := items_db.map newsOut
    let items_received := items.length
    let next_page := if offset + items_received < total_count
                     then some (page + 1) else none
    let prev_page := if page > 1 then some (page - 1) else none
    .ok { newsList :=
            { itemsReceived := items_received, curPage := page
              nextPage := next_page, prevPage := prev_page
              offset := offset, perPage := per_page, items := items }
          limit := per_page, offset := offset }

/-- ceil(N / K): the number of pages a collection of N items splits into
at K items per page. -/
def totalPages (N K : Nat) : Nat := (N + K - 1) / K

/-! ### Concrete sample data for the closed witness and counterexample
theorems -/

/-- A fresh store. -/
def dbEmpty : DB :=
  { users := [], churches := [], church_members := [], news_admin := []
    next_user_id := 1, next_member_id := 1 }

/-- Admin user 1. -/
def adminOne : User :=
  { id := 1, created_at := 0, name := "alice", email := "alice@x.com"
    password := hash_password "pw1", is_admin := true
    age := none, gender := none, phone := none, address := none }

/-- Admin user 2. -/
def adminTwo : User :=
  { id := 2, created_at := 0, name := "bob", email := "bob@x.com"
    password := hash_password "pw2", is_admin := true
    age := none, gender := none, phone := none, address := none }

/-- Church 10, created by admin 1. -/
def churchTen : Church :=
  { id := 10, created_at := 0, name := "first", address := none, city := none
    state := none, contact_number := none, short_description := none
    logo := none, created_by := 1 }

/-- Church 20, created by admin 2. -/
def churchTwenty : Church :=
  { id := 20, created_at := 0, name := "second", address := none, city := none
    state := none, contact_number := none, short_description := none
    logo := none, created_by := 2 }

/-- A news row of church 10 created by admin 1. -/
def newsRow (i t : Nat) : NewsAdmin :=
  { id := i, created_at := t, title := "title", content := "body"
    image := none, church_id := 10, created_by := 1, updated_at := t }

/-- A populated sample store. -/
def dbSample : DB :=
  { users := [adminOne, adminTwo]
    churches := [churchTen, churchTwenty]
    church_members := []
    news_admin := [newsRow 1 5, newsRow 2 3, newsRow 3 2]
    next_user_id := 3, next_member_id := 1 }

/-- A member signup body with an all-lowercase email. -/
def payloadMember : MemberSignupRequest :=
  { name := "mem", email := "foo@x.com", password := "pw"
    age := none, gender := none, phone := none, address := none }

/-- An admin signup body whose email differs from `payloadMember`'s only
by the case of one letter. -/
def payloadAdminCase : UserCreate :=
  { name := "adm", email := "Foo@x.com", is_admin := false
    age := none, gender := none, phone := none, address := none
    password := "pw" }

/-- Two news rows of church 10 sharing one creation timestamp. -/
def newsTieA : NewsAdmin := newsRow 1 7

/-- See `newsTieA`. -/
def newsTieB : NewsAdmin := newsRow 2 7

/-- A store whose news table holds exactly the two tied rows. -/
def dbTie : DB :=
  { users := [adminOne], churches := [churchTen], church_members := []
    news_admin := [newsTieA, newsTieB], next_user_id := 2, next_member_id := 1 }

end ChurchTalk

namespace ChurchTalk

/-- C1: `ensure_church_owned` returns a church exactly when a church with
that id owned by `admin_id` exists; any returned church has that id and
owner; and in every other case (church absent, or present but owned by
someone else) the outcome is one and the same 403 value, so existence is
not distinguishable from non-ownership. -/
theorem ensure_church_owned_ownership_iff (db : DB) (church_id admin_id : Nat) :
    ((∃ c, ensure_church_owned db church_id admin_id = .ok c) ↔
      ∃ c ∈ db.churches, c.id = church_id ∧ c.created_by = admin_id) ∧
    (∀ c, ensure_church_owned db church_id admin_id = .ok c →
      c ∈ db.churches ∧ c.id = church_id ∧ c.created_by = admin_id) ∧
    ((¬ ∃ c ∈ db.churches, c.id = church_id ∧ c.created_by = admin_id) →
      ensure_church_owned db church_id admin_id = .error
        { status_code := 403
          detail := "You are not authorized to manage news for this church." }) := by
  have hok : ∀ c, ensure_church_owned db church_id admin_id = Except.ok c ↔
      db.churches.find? (fun c => c.id == church_id && c.created_by == admin_id)
        = some c := by
    intro c
    unfold ensure_church_owned
    cases hfind : db.churches.find?
        (fun c => c.id == church_id && c.created_by == admin_id) <;> simp
  have herr : db.churches.find?
      (fun c => c.id == church_id && c.created_by == admin_id) = none →
      ensure_church_owned db church_id admin_id = Except.error
        { status_code := 403
          detail := "You are not authorized to manage news for this church." } := by
    intro h
    unfold ensure_church_owned
    rw [h]
  refine ⟨?_, ?_, ?_⟩
  · constructor
    · rintro ⟨c, hc⟩
      have hfind := (hok c).mp hc
      have hmem := List.mem_of_find?_eq_some hfind
      have hp := List.find?_some hfind
      simp only [Bool.and_eq_true, beq_iff_eq] at hp
      exact ⟨c, hmem, hp.1, hp.2⟩
    · rintro ⟨c, hmem, hid, hby⟩
      cases hfind : db.churches.find?
          (fun c => c.id == church_id && c.created_by == admin_id) with
      | none =>
        exfalso
        have := List.find?_eq_none.mp hfind c hmem
        simp [hid, hby] at this
      | some c0 => exact ⟨c0, (hok c0).mpr hfind⟩
  · intro c hc
    have hfind := (hok c).mp hc
    have hmem := List.mem_of_find?_eq_some hfind
    have hp := List.find?_some hfind
    simp only [Bool.and_eq_true, beq_iff_eq] at hp
    exact ⟨hmem, hp.1, hp.2⟩
  · intro hno
    apply herr
    cases hfind : db.churches.find?
        (fun c => c.id == church_id && c.created_by == admin_id) with
    | none => rfl
    | some c0 =>
      exfalso
      have hmem := List.mem_of_find?_eq_some hfind
      have hp := List.find?_some hfind
      simp only [Bool.and_eq_true, beq_iff_eq] at hp
      exact hno ⟨c0, hmem, hp.1, hp.2⟩

end ChurchTalk

namespace ChurchTalk

/-- Witness for C1 at concrete data: admin 1 owns church 10 and gets it
back; church 20 exists but belongs to admin 2, and church 99 is absent -
both yield one and the same 403 value. -/
theorem ensure_church_owned_ownership_iff_witness :
    (∃ c, ensure_church_owned dbSample 10 1 = .ok c) ∧
    ensure_church_owned dbSample 20 1 = .error
      { status_code := 403
        detail := "You are not authorized to manage news for this church." } ∧
    ensure_church_owned dbSample 99 1 = .error
      { status_code := 403
        detail := "You are not authorized to manage news for this church." } := by
  refine ⟨?_, ?_, ?_⟩
  · exact (ensure_church_owned_ownership_iff dbSample 10 1).1.mpr
      ⟨churchTen, by decide, by decide, by decide⟩
  · exact (ensure_church_owned_ownership_iff dbSample 20 1).2.2 (by decide)
  · exact (ensure_church_owned_ownership_iff dbSample 99 1).2.2 (by decide)

/-- C8: token verification maps each expected failure mode - malformed
token, invalid signature, expiration instant in the past, or missing sub
claim - to the one 401 outcome (`credentials_exception`), never to any
other error; in particular a token whose exp lies in the past fails with
that outcome whatever its signature is. -/
theorem get_current_user_failure_modes (t : Token) (db : DB) (now : Instant)
    (h : (∃ raw, t = .malformed raw) ∨
         (∃ p sig, t = .signed p sig ∧ sig ≠ hmacSig JWT_SECRET p) ∨
         (∃ p sig, t = .signed p sig ∧ p.exp < now) ∨
         (∃ p sig, t = .signed p sig ∧ p.sub = none)) :
    get_current_user t db now = .error (.http credentials_exception) := by
  rcases h with ⟨raw, rfl⟩ | ⟨p, sig, rfl, hs⟩ | ⟨p, sig, rfl, he⟩ | ⟨p, sig, rfl, hn⟩
  · rfl
  · simp [get_current_user, jwt_decode, hs]
  · by_cases hs : sig = hmacSig JWT_SECRET p
    · simp [get_current_user, jwt_decode, hs, he]
    · simp [get_current_user, jwt_decode, hs]
  · by_cases hs : sig = hmacSig JWT_SECRET p
    · by_cases he : p.exp < now
      · simp [get_current_user, jwt_decode, hs, he]
      · simp [get_current_user, jwt_decode, hs, he, hn]
    · simp [get_current_user, jwt_decode, hs]

/-- Witness for C8: an expired token with a perfectly valid signature, a
badly signed token, and a malformed one all land on the same 401. -/
theorem get_current_user_failure_modes_witness :
    get_current_user
      (.signed { sub := some (.numeral 1), exp := 5 }
        (hmacSig JWT_SECRET { sub := some (.numeral 1), exp := 5 }))
      dbSample 100 = .error (.http credentials_exception) ∧
    get_current_user (.signed { sub := some (.numeral 1), exp := 200 } "bad")
      dbSample 100 = .error (.http credentials_exception) ∧
    get_current_user (.malformed "junk") dbSample 100
      = .error (.http credentials_exception) := by
  refine ⟨?_, ?_, ?_⟩
  · exact get_current_user_failure_modes _ dbSample 100
      (Or.inr (Or.inr (Or.inl ⟨_, _, rfl, by decide⟩)))
  · exact get_current_user_failure_modes _ dbSample 100
      (Or.inr (Or.inl ⟨_, _, rfl, by decide⟩))
  · exact get_current_user_failure_modes _ dbSample 100 (Or.inl ⟨_, rfl⟩)

end ChurchTalk

namespace ChurchTalk

/-- Helper: decoding a freshly issued token with the issuing secret, at an
instant on or before its expiration, yields its payload. -/
theorem jwt_decode_create_access_token (subject : Subject) (now0 now : Instant)
    (h : ¬ (JWT_ACCESS_TOKEN_EXPIRE_MINUTES * 60 + now0 < now)) :
    jwt_decode (create_access_token subject now0) JWT_SECRET now
      = .ok { sub := some (subjectStr subject)
              exp := JWT_ACCESS_TOKEN_EXPIRE_MINUTES * 60 + now0 } := by
  simp only [create_access_token, jwt_decode, ne_eq, not_true_eq_false,
    if_false, h, ite_false]

/-- Helper: decoding an issued token after its expiration yields the
JWTError outcome. -/
theorem jwt_decode_create_access_token_expired (subject : Subject)
    (now0 now : Instant)
    (h : JWT_ACCESS_TOKEN_EXPIRE_MINUTES * 60 + now0 < now) :
    jwt_decode (create_access_token subject now0) JWT_SECRET now
      = .error () := by
  simp only [create_access_token, jwt_decode, ne_eq, not_true_eq_false,
    if_false, h, ite_true]

/-- Helper: resolving a fresh int-subject token reduces to the user lookup. -/
theorem get_current_user_int_token (S : Nat) (db : DB) (now0 now : Instant)
    (hfresh : now ≤ JWT_ACCESS_TOKEN_EXPIRE_MINUTES * 60 + now0) :
    get_current_user (create_access_token (.int S) now0) db now
      = match db.users.find? (fun u => u.id == S) with
        | none => .error (.http credentials_exception)
        | some u => .ok u := by
  unfold get_current_user
  rw [jwt_decode_create_access_token _ _ _ (Nat.not_lt.mpr hfresh)]
  rfl

/-- Helper: resolving a fresh dict-subject token stops at `int(user_id)`
with the uncaught ValueError. -/
theorem get_current_user_dict_token (n : Nat) (db : DB) (now0 now : Instant)
    (hfresh : now ≤ JWT_ACCESS_TOKEN_EXPIRE_MINUTES * 60 + now0) :
    get_current_user (create_access_token (.dict n) now0) db now
      = .error .pyValueError := by
  unfold get_current_user
  rw [jwt_decode_create_access_token _ _ _ (Nat.not_lt.mpr hfresh)]
  rfl

/-- Helper: resolving any expired issued token yields the 401. -/
theorem get_current_user_expired_token (subject : Subject) (db : DB)
    (now0 now : Instant)
    (h : JWT_ACCESS_TOKEN_EXPIRE_MINUTES * 60 + now0 < now) :
    get_current_user (create_access_token subject now0) db now
      = .error (.http credentials_exception) := by
  unfold get_current_user
  rw [jwt_decode_create_access_token_expired _ _ _ h]

/-- C9: a token issued for the integer subject S resolves to the user
record whose id is S, provided such a user still exists and the token has
not expired; when no user with id S exists, or when the token has expired,
resolution fails with the one 401 outcome. -/
theorem resolve_issue_roundtrip (S : Nat) (db : DB) (now0 now : Instant)
    (hfresh : now ≤ JWT_ACCESS_TOKEN_EXPIRE_MINUTES * 60 + now0) :
    (∀ u, db.users.find? (fun x => x.id == S) = some u →
       get_current_user (create_access_token (.int S) now0) db now = .ok u ∧
       u.id = S) ∧
    (db.users.find? (fun x => x.id == S) = none →
       get_current_user (create_access_token (.int S) now0) db now
         = .error (.http credentials_exception)) ∧
    (∀ now2, JWT_ACCESS_TOKEN_EXPIRE_MINUTES * 60 + now0 < now2 →
       get_current_user (create_access_token (.int S) now0) db now2
         = .error (.http credentials_exception)) := by
  refine ⟨?_, ?_, ?_⟩
  · intro u hu
    constructor
    · rw [get_current_user_int_token S db now0 now hfresh, hu]
    · have := List.find?_some hu
      simpa using this
  · intro hnone
    rw [get_current_user_int_token S db now0 now hfresh, hnone]
  · intro now2 hexp
    exact get_current_user_expired_token _ db now0 now2 hexp

/-- Witness for C9: a token issued for admin 1 against the sample store
resolves to admin 1 while fresh; for the absent id 9 it yields the 401;
and after the TTL has passed it yields the 401. -/
theorem resolve_issue_roundtrip_witness :
    get_current_user (create_access_token (.int 1) 0) dbSample 60
      = .ok adminOne ∧
    get_current_user (create_access_token (.int 9) 0) dbSample 60
      = .error (.http credentials_exception) ∧
    get_current_user (create_access_token (.int 1) 0) dbSample 100000
      = .error (.http credentials_exception) := by
  refine ⟨?_, ?_, ?_⟩
  · exact ((resolve_issue_roundtrip 1 dbSample 0 60 (by decide)).1 adminOne
      (by decide)).1
  · exact (resolve_issue_roundtrip 9 dbSample 0 60 (by decide)).2.1 (by decide)
  · exact (resolve_issue_roundtrip 1 dbSample 0 0 (by decide)).2.2 100000
      (by decide)

end ChurchTalk

namespace ChurchTalk

/-- C2: the token `member_signup` returns carries as sub claim the Python
str() of the dict with key id - not the numeral of the user id - because
the handler passes `create_access_token` a dict; presenting that token to
`get_current_user` before expiry raises the uncaught ValueError from
`int(user_id)` (an outcome distinct from every HTTPException, in
particular from the 401); and no store, instant or user ever makes
`get_current_user` accept such a token. -/
theorem member_signup_token_never_authenticates
    (payload : MemberSignupRequest) (db : DB) (now : Instant)
    (resp : MemberSignupResponse) (db' : DB)
    (hok : member_signup payload db now = (.ok resp, db')) :
    (resp.auth_token = create_access_token (.dict resp.user.id) now ∧
     ∃ p sig, resp.auth_token = .signed p sig ∧
       p.sub = some (.dictRepr resp.user.id) ∧
       p.sub ≠ some (.numeral resp.user.id)) ∧
    (∀ (db2 : DB) (now2 : Instant),
       now2 ≤ JWT_ACCESS_TOKEN_EXPIRE_MINUTES * 60 + now →
       get_current_user resp.auth_token db2 now2 = .error .pyValueError ∧
       ∀ e : HTTPException, Failure.pyValueError ≠ Failure.http e) ∧
    (∀ (db2 : DB) (now2 : Instant) (u : User),
       get_current_user resp.auth_token db2 now2 ≠ .ok u) := by
  have htok : resp.auth_token
      = create_access_token (.dict db.next_user_id) now ∧
      resp.user.id = db.next_user_id := by
    cases hfind : db.users.find?
        (fun u => u.email == pyLower (pyStrip payload.email)) with
    | some u =>
      unfold member_signup at hok
      simp only [hfind] at hok
      simp at hok
    | none =>
      unfold member_signup at hok
      simp only [hfind, Prod.mk.injEq, Except.ok.injEq] at hok
      rcases hok with ⟨hresp, _⟩
      rw [← hresp]
      exact ⟨rfl, rfl⟩
  rcases htok with ⟨htok, hid⟩
  refine ⟨⟨by rw [htok, hid], ?_⟩, ?_, ?_⟩
  · refine ⟨_, _, by rw [htok]; rfl, ?_, ?_⟩
    · rw [hid]
      rfl
    · rw [hid]
      simp [subjectStr]
  · intro db2 now2 hfresh
    refine ⟨?_, fun e => by simp⟩
    rw [htok]
    exact get_current_user_dict_token db.next_user_id db2 now now2 hfresh
  · intro db2 now2 u
    rw [htok]
    rcases Nat.lt_or_ge (JWT_ACCESS_TOKEN_EXPIRE_MINUTES * 60 + now) now2 with hlt | hge
    · rw [get_current_user_expired_token _ db2 now now2 hlt]
      simp
    · rw [get_current_user_dict_token db.next_user_id db2 now now2 hge]
      simp

/-- Witness for C2: member signup on the sample store succeeds, and the
returned token yields the uncaught ValueError against the very store that
issued it, while still fresh. -/
theorem member_signup_token_never_authenticates_witness :
    ∃ resp db',
      member_signup payloadMember dbSample 3 = (.ok resp, db') ∧
      get_current_user resp.auth_token db' 60 = .error .pyValueError ∧
      ∀ u : User, get_current_user resp.auth_token db' 60 ≠ .ok u := by
  cases hok : member_signup payloadMember dbSample 3 with
  | mk r d =>
    cases r with
    | error e =>
      exfalso
      have hev : (member_signup payloadMember dbSample 3).1.isOk = true := by
        decide
      rw [hok] at hev
      simp [Except.toBool] at hev
    | ok resp =>
      have h := member_signup_token_never_authenticates payloadMember dbSample 3
        resp d hok
      exact ⟨resp, d, rfl, (h.2.1 d 60 (by decide)).1, fun u => h.2.2 d 60 u⟩

end ChurchTalk

namespace ChurchTalk

/-- Helper: when the church exists and no membership row matches, the join
inserts a freshly stamped row and reports joined=true. -/
theorem member_join_church_insert (church_id : Nat) (user : User) (db : DB)
    (now : Instant) (c : Church)
    (hc : db.churches.find? (fun c => c.id == church_id) = some c)
    (hm : db.church_members.find?
      (fun m => m.user == user.id && m.church == church_id) = none) :
    member_join_church church_id user db now =
      (.ok { message := "Joined church successfully", joined := true
             membership := membershipOut
               ⟨db.next_member_id, now, user.id, church_id, now⟩ },
       { db with
         church_members :=
           db.church_members ++ [⟨db.next_member_id, now, user.id, church_id, now⟩]
         next_member_id := db.next_member_id + 1 }) := by
  unfold member_join_church
  simp only [hc, hm]

/-- Helper: when the church exists and a membership row already matches,
the join reports that row with joined=false and leaves the store alone. -/
theorem member_join_church_existing (church_id : Nat) (user : User) (db : DB)
    (now : Instant) (c : Church)
    (hc : db.churches.find? (fun c => c.id == church_id) = some c)
    (m : ChurchMember)
    (hm : db.church_members.find?
      (fun m => m.user == user.id && m.church == church_id) = some m) :
    member_join_church church_id user db now =
      (.ok { message := "Already a member of this church", joined := false
             membership := membershipOut m }, db) := by
  unfold member_join_church
  simp only [hc, hm]

/-- Helper: when no church has the requested id, the join is the 404. -/
theorem member_join_church_notfound (church_id : Nat) (user : User) (db : DB)
    (now : Instant)
    (hc : db.churches.find? (fun c => c.id == church_id) = none) :
    member_join_church church_id user db now
      = (.error { status_code := 404, detail := "Church not found." }, db) := by
  unfold member_join_church
  simp only [hc]

/-- C6: for a user and an existing church with no membership row for the
pair, two sequential joinChurch calls return joined=true then
joined=false with identical membership payloads (id, user, church,
created_at, joined_at) and no second mutation; and when the church id
resolves to no Church the call fails with the 404 and the store is
untouched. -/
theorem member_join_church_idempotent
    (user : User) (church_id : Nat) (db : DB) (now1 now2 : Instant) :
    ((∃ c ∈ db.churches, c.id = church_id) →
     (∀ m ∈ db.church_members, ¬ (m.user = user.id ∧ m.church = church_id)) →
     ∃ r1 db1 r2,
       member_join_church church_id user db now1 = (.ok r1, db1) ∧
       member_join_church church_id user db1 now2 = (.ok r2, db1) ∧
       r1.joined = true ∧ r2.joined = false ∧
       r1.membership = r2.membership) ∧
    ((¬ ∃ c ∈ db.churches, c.id = church_id) →
     member_join_church church_id user db now1
       = (.error { status_code := 404, detail := "Church not found." }, db)) := by
  constructor
  · intro hch hnome
    obtain ⟨c, hcmem, hcid⟩ := hch
    obtain ⟨c0, hc0⟩ : ∃ c0,
        db.churches.find? (fun c => c.id == church_id) = some c0 := by
      have h1 : (db.churches.find? (fun c => c.id == church_id)).isSome :=
        List.find?_isSome.mpr ⟨c, hcmem, by simp [hcid]⟩
      exact Option.isSome_iff_exists.mp h1
    have hmnone : db.church_members.find?
        (fun m => m.user == user.id && m.church == church_id) = none := by
      apply List.find?_eq_none.mpr
      intro m hm
      have hne := hnome m hm
      simp only [Bool.and_eq_true, beq_iff_eq]
      exact fun hcon => hne hcon
    have h2 : member_join_church church_id user
        ({ db with
           church_members :=
             db.church_members ++ [⟨db.next_member_id, now1, user.id, church_id, now1⟩]
           next_member_id := db.next_member_id + 1 }) now2
        = (.ok { message := "Already a member of this church", joined := false
                 membership := membershipOut
                   ⟨db.next_member_id, now1, user.id, church_id, now1⟩ },
           { db with
             church_members :=
               db.church_members ++ [⟨db.next_member_id, now1, user.id, church_id, now1⟩]
             next_member_id := db.next_member_id + 1 }) := by
      refine member_join_church_existing church_id user _ now2 c0 ?_
        ⟨db.next_member_id, now1, user.id, church_id, now1⟩ ?_
      · exact hc0
      · show (db.church_members ++
            ([⟨db.next_member_id, now1, user.id, church_id, now1⟩] :
              List ChurchMember)).find?
            (fun m => m.user == user.id && m.church == church_id)
          = some (⟨db.next_member_id, now1, user.id, church_id, now1⟩ :
              ChurchMember)
        rw [List.find?_append, hmnone]
        simp
    exact ⟨_, _, _,
      member_join_church_insert church_id user db now1 c0 hc0 hmnone,
      h2, rfl, rfl, rfl⟩
  · intro hno
    apply member_join_church_notfound
    cases hfind : db.churches.find? (fun c => c.id == church_id) with
    | none => rfl
    | some c0 =>
      exfalso
      have hmem := List.mem_of_find?_eq_some hfind
      have hp := List.find?_some hfind
      simp only [beq_iff_eq] at hp
      exact hno ⟨c0, hmem, hp⟩

/-- Witness for C6: user 2 joins church 10 twice on the sample store;
and joining the absent church 99 is the 404 with the store untouched. -/
theorem member_join_church_idempotent_witness :
    (∃ r1 db1 r2,
      member_join_church 10 adminTwo dbSample 5 = (.ok r1, db1) ∧
      member_join_church 10 adminTwo db1 6 = (.ok r2, db1) ∧
      r1.joined = true ∧ r2.joined = false ∧
      r1.membership = r2.membership) ∧
    member_join_church 99 adminTwo dbSample 5
      = (.error { status_code := 404, detail := "Church not found." },
         dbSample) := by
  constructor
  · exact (member_join_church_idempotent adminTwo 10 dbSample 5 6).1
      ⟨churchTen, by decide, by decide⟩ (by decide)
  · exact (member_join_church_idempotent adminTwo 99 dbSample 5 6).2 (by decide)

end ChurchTalk

namespace ChurchTalk

/-- Helper: in a list of news rows with pairwise distinct ids, two members
sharing an id are the same row. -/
theorem mem_unique_id {l : List NewsAdmin}
    (hp : l.Pairwise (fun a b => a.id ≠ b.id))
    {a b : NewsAdmin} (ha : a ∈ l) (hb : b ∈ l) (hid : a.id = b.id) :
    a = b := by
  induction l with
  | nil => cases ha
  | cons x t ih =>
    rcases List.pairwise_cons.mp hp with ⟨hx, ht⟩
    rcases List.mem_cons.mp ha with rfl | ha'
    · rcases List.mem_cons.mp hb with rfl | hb'
      · rfl
      · exact absurd hid (hx b hb')
    · rcases List.mem_cons.mp hb with rfl | hb'
      · exact absurd hid.symm (hx a ha')
      · exact ih ht ha' hb'

/-- Helper: under pairwise distinct ids, erasing the first row with a given
id equals keeping every row with a different id. -/
theorem eraseP_id_eq_filter (pid : Nat) :
    ∀ (l : List NewsAdmin), l.Pairwise (fun a b => a.id ≠ b.id) →
      l.eraseP (fun n => n.id == pid) = l.filter (fun n => n.id != pid) := by
  intro l
  induction l with
  | nil => intro _; rfl
  | cons x t ih =>
    intro hp
    rcases List.pairwise_cons.mp hp with ⟨hx, ht⟩
    by_cases hxp : x.id = pid
    · have h2 : t.filter (fun n => n.id != pid) = t := by
        apply List.filter_eq_self.mpr
        intro a ha
        have hne := hx a ha
        simp only [bne_iff_ne, ne_eq]
        rw [← hxp]
        exact fun hcon => hne hcon.symm
      rw [List.filter_cons]
      simp [List.eraseP_cons, hxp, h2]
    · rw [List.filter_cons]
      simp [List.eraseP_cons, hxp, ih ht]

/-- C10: `POST /news/delete` removes a news row exactly when a row with the
given id exists and the calling admin created it; a row created by someone
else yields the 403 and an absent id yields the 404, and in both failure
cases the stored news collection is unchanged. -/
theorem delete_news_creator_only (payload_id : Nat) (admin : User) (db : DB)
    (hids : db.news_admin.Pairwise (fun a b => a.id ≠ b.id)) :
    ((∃ n ∈ db.news_admin, n.id = payload_id ∧ n.created_by = admin.id) →
      delete_NewsAdmin payload_id admin db
        = (.ok { message := "News item deleted successfully.", id := payload_id },
           { db with
             news_admin := db.news_admin.filter (fun n => n.id != payload_id) })) ∧
    ((∃ n ∈ db.news_admin, n.id = payload_id ∧ n.created_by ≠ admin.id) →
      delete_NewsAdmin payload_id admin db
        = (.error { status_code := 403
                    detail := "You are not authorized to delete this news item." },
           db)) ∧
    ((¬ ∃ n ∈ db.news_admin, n.id = payload_id) →
      delete_NewsAdmin payload_id admin db
        = (.error { status_code := 404, detail := "News item not found." }, db)) := by
  have hfind_some : ∀ n ∈ db.news_admin, n.id = payload_id →
      db.news_admin.find? (fun x => x.id == payload_id) = some n := by
    intro n hn hid
    have hs : (db.news_admin.find? (fun x => x.id == payload_id)).isSome :=
      List.find?_isSome.mpr ⟨n, hn, by simp [hid]⟩
    obtain ⟨n', hn'⟩ := Option.isSome_iff_exists.mp hs
    have hmem := List.mem_of_find?_eq_some hn'
    have hpq := List.find?_some hn'
    simp only [beq_iff_eq] at hpq
    have heq : n' = n := mem_unique_id hids hmem hn (by rw [hpq, hid])
    rw [hn', heq]
  refine ⟨?_, ?_, ?_⟩
  · rintro ⟨n, hn, hid, hcb⟩
    unfold delete_NewsAdmin
    simp only [hfind_some n hn hid]
    rw [if_neg (by simp [hcb]),
      eraseP_id_eq_filter payload_id db.news_admin hids]
  · rintro ⟨n, hn, hid, hcb⟩
    unfold delete_NewsAdmin
    simp only [hfind_some n hn hid]
    rw [if_pos hcb]
  · intro hno
    unfold delete_NewsAdmin
    have hnone : db.news_admin.find? (fun x => x.id == payload_id) = none := by
      apply List.find?_eq_none.mpr
      intro n hn
      simp only [beq_iff_eq]
      exact fun hcon => hno ⟨n, hn, hcon⟩
    rw [hnone]

/-- Witness for C10 on the sample store: admin 1 deletes its row 2 and the
collection shrinks to rows 1 and 3; admin 2 hitting row 1 gets the 403
with the store untouched; id 99 gets the 404 with the store untouched. -/
theorem delete_news_creator_only_witness :
    delete_NewsAdmin 2 adminOne dbSample
      = (.ok { message := "News item deleted successfully.", id := 2 },
         { dbSample with news_admin := [newsRow 1 5, newsRow 3 2] }) ∧
    delete_NewsAdmin 1 adminTwo dbSample
      = (.error { status_code := 403
                  detail := "You are not authorized to delete this news item." },
         dbSample) ∧
    delete_NewsAdmin 99 adminOne dbSample
      = (.error { status_code := 404, detail := "News item not found." },
         dbSample) := by
  refine ⟨?_, ?_, ?_⟩
  · have h := (delete_news_creator_only 2 adminOne dbSample (by decide)).1
      ⟨newsRow 2 3, by decide, by decide, by decide⟩
    rw [h]
    rfl
  · exact (delete_news_creator_only 1 adminTwo dbSample (by decide)).2.1
      ⟨newsRow 1 5, by decide, by decide, by decide⟩
  · exact (delete_news_creator_only 99 adminOne dbSample (by decide)).2.2
      (by decide)

end ChurchTalk

namespace ChurchTalk

/-- C7 counterexample: member signup with "foo@x.com" and then admin
signup with "Foo@x.com" both succeed, leaving two User records whose
emails differ only by the case of one letter - so case-normalized email
uniqueness is NOT enforced across the two signup paths. -/
theorem signup_case_collision_cex :
    (member_signup payloadMember dbEmpty 0).1.isOk = true ∧
    (admin_signup payloadAdminCase
      (member_signup payloadMember dbEmpty 0).2 1).1.isOk = true ∧
    ((admin_signup payloadAdminCase
        (member_signup payloadMember dbEmpty 0).2 1).2.users.map
      (fun u => u.email)) = ["foo@x.com", "Foo@x.com"] ∧
    pyLower "Foo@x.com" = pyLower "foo@x.com" ∧
    "Foo@x.com" ≠ "foo@x.com" := by
  refine ⟨rfl, rfl, by decide, by decide, by decide⟩

/-- C7 amended: only the member signup path normalizes the email
(strip then lowercase) before the duplicate check and the insert; the
admin path checks and stores the raw email; on either path a duplicate
(under that path's own notion of equality) yields the 400 with no user
created, and otherwise exactly one user is appended carrying that path's
version of the email. -/
theorem signup_email_check_paths (db : DB) (now : Instant)
    (pm : MemberSignupRequest) (pa : UserCreate) :
    ((∃ u ∈ db.users, u.email = pyLower (pyStrip pm.email)) →
      member_signup pm db now
        = (.error { status_code := 400, detail := "Email already registered" },
           db)) ∧
    ((¬ ∃ u ∈ db.users, u.email = pyLower (pyStrip pm.email)) →
      ∃ r db', member_signup pm db now = (.ok r, db') ∧
        db'.users = db.users ++ [r.user] ∧
        r.user.email = pyLower (pyStrip pm.email)) ∧
    ((∃ u ∈ db.users, u.email = pa.email) →
      admin_signup pa db now
        = (.error { status_code := 400, detail := "Email already registered" },
           db)) ∧
    ((¬ ∃ u ∈ db.users, u.email = pa.email) →
      ∃ r db', admin_signup pa db now = (.ok r, db') ∧
        db'.users = db.users ++ [r.user] ∧
        r.user.email = pa.email) := by
  refine ⟨?_, ?_, ?_, ?_⟩
  · rintro ⟨u, hu, he⟩
    obtain ⟨u0, hu0⟩ : ∃ u0, db.users.find?
        (fun x => x.email == pyLower (pyStrip pm.email)) = some u0 := by
      have h1 : (db.users.find?
          (fun x => x.email == pyLower (pyStrip pm.email))).isSome :=
        List.find?_isSome.mpr ⟨u, hu, by simp [he]⟩
      exact Option.isSome_iff_exists.mp h1
    unfold member_signup
    simp only [hu0]
  · intro hno
    have hnone : db.users.find?
        (fun x => x.email == pyLower (pyStrip pm.email)) = none := by
      apply List.find?_eq_none.mpr
      intro u hu
      simp only [beq_iff_eq]
      exact fun hcon => hno ⟨u, hu, hcon⟩
    refine ⟨{ auth_token := create_access_token (.dict db.next_user_id) now
              user := ⟨db.next_user_id, now, pm.name, pyLower (pyStrip pm.email),
                       hash_password pm.password, false, pm.age, pm.gender,
                       pm.phone, pm.address⟩ },
            { db with
              users := db.users ++
                [⟨db.next_user_id, now, pm.name, pyLower (pyStrip pm.email),
                  hash_password pm.password, false, pm.age, pm.gender,
                  pm.phone, pm.address⟩]
              next_user_id := db.next_user_id + 1 }, ?_, rfl, rfl⟩
    unfold member_signup
    simp only [hnone]
  · rintro ⟨u, hu, he⟩
    obtain ⟨u0, hu0⟩ : ∃ u0, db.users.find?
        (fun x => x.email == pa.email) = some u0 := by
      have h1 : (db.users.find? (fun x => x.email == pa.email)).isSome :=
        List.find?_isSome.mpr ⟨u, hu, by simp [he]⟩
      exact Option.isSome_iff_exists.mp h1
    unfold admin_signup
    simp only [hu0]
  · intro hno
    have hnone : db.users.find? (fun x => x.email == pa.email) = none := by
      apply List.find?_eq_none.mpr
      intro u hu
      simp only [beq_iff_eq]
      exact fun hcon => hno ⟨u, hu, hcon⟩
    refine ⟨{ authToken := create_access_token (.int db.next_user_id) now
              user := ⟨db.next_user_id, now, pa.name, pa.email,
                       hash_password pa.password, true, pa.age, pa.gender,
                       pa.phone, pa.address⟩ },
            { db with
              users := db.users ++
                [⟨db.next_user_id, now, pa.name, pa.email,
                  hash_password pa.password, true, pa.age, pa.gender,
                  pa.phone, pa.address⟩]
              next_user_id := db.next_user_id + 1 }, ?_, rfl, rfl⟩
    unfold admin_signup
    simp only [hnone]

/-- Witness for the amended C7: a second member signup whose email strips
and lowercases to the already-taken "foo@x.com" is refused with the store
untouched, while the admin path accepts "Foo@x.com" verbatim. -/
theorem signup_email_check_paths_witness :
    member_signup { name := "m2", email := " FOO@x.com ", password := "pw2"
                    age := none, gender := none, phone := none, address := none }
        (member_signup payloadMember dbEmpty 0).2 7
      = (.error { status_code := 400, detail := "Email already registered" },
         (member_signup payloadMember dbEmpty 0).2) ∧
    (∃ r db', admin_signup payloadAdminCase
        (member_signup payloadMember dbEmpty 0).2 7 = (.ok r, db') ∧
      r.user.email = "Foo@x.com") := by
  constructor
  · exact (signup_email_check_paths (member_signup payloadMember dbEmpty 0).2 7
      { name := "m2", email := " FOO@x.com ", password := "pw2"
        age := none, gender := none, phone := none, address := none }
      payloadAdminCase).1 (by decide)
  · obtain ⟨r, db', h1, _, h3⟩ := (signup_email_check_paths
        (member_signup payloadMember dbEmpty 0).2 7
        payloadMember payloadAdminCase).2.2.2 (by decide)
    exact ⟨r, db', h1, h3⟩

end ChurchTalk

namespace ChurchTalk

/-- C4 counterexample: on a store holding two news rows of the owned
church with equal creation timestamps and different ids, BOTH relative
orders are admissible results of the code's `ORDER BY created_at DESC`
(which carries no id tiebreak), so the pre-paging order is not fully
deterministic and ties are not broken by identifier. -/
theorem order_by_tie_nondeterministic_cex :
    OrderedByCreatedAtDesc (newsQuery dbTie 10 1) [newsTieA, newsTieB] ∧
    OrderedByCreatedAtDesc (newsQuery dbTie 10 1) [newsTieB, newsTieA] ∧
    ([newsTieA, newsTieB] : List NewsAdmin) ≠ [newsTieB, newsTieA] ∧
    newsTieA.created_at = newsTieB.created_at ∧
    newsTieA.id ≠ newsTieB.id := by
  refine ⟨⟨by decide, by decide⟩, ⟨by decide, by decide⟩,
    by decide, by decide, by decide⟩

/-- C4 amended: the code orders only by creation timestamp descending;
when the filtered rows have pairwise distinct creation timestamps the
returned order is fully determined (any two admissible orders coincide),
but equal-timestamp rows have no id tiebreak, so their relative order is
left to the backing store. -/
theorem order_by_deterministic_of_distinct_timestamps
    (rows l1 l2 : List NewsAdmin)
    (hd : rows.Pairwise (fun a b => a.created_at ≠ b.created_at))
    (h1 : OrderedByCreatedAtDesc rows l1)
    (h2 : OrderedByCreatedAtDesc rows l2) :
    l1 = l2 := by
  rcases h1 with ⟨hp1, hs1⟩
  rcases h2 with ⟨hp2, hs2⟩
  have hperm : l1.Perm l2 := hp1.symm.trans hp2
  have hd1 : l1.Pairwise (fun a b => a.created_at ≠ b.created_at) :=
    (List.Perm.pairwise_iff (fun h => h.symm) hp1).mp hd
  have hd2 : l2.Pairwise (fun a b => a.created_at ≠ b.created_at) :=
    (List.Perm.pairwise_iff (fun h => h.symm) hp2).mp hd
  have hstrict1 : l1.Pairwise (fun a b => b.created_at < a.created_at) :=
    (hs1.and hd1).imp (fun h => lt_of_le_of_ne h.1 (Ne.symm h.2))
  have hstrict2 : l2.Pairwise (fun a b => b.created_at < a.created_at) :=
    (hs2.and hd2).imp (fun h => lt_of_le_of_ne h.1 (Ne.symm h.2))
  haveI : IsAntisymm NewsAdmin (fun a b => b.created_at < a.created_at) :=
    ⟨fun a b hab hba => absurd (hab.trans hba) (lt_irrefl _)⟩
  exact List.eq_of_perm_of_sorted hperm hstrict1 hstrict2

/-- Witness for the amended C4: with the two sample rows at distinct
timestamps 5 and 3, any two admissible orders coincide. -/
theorem order_by_deterministic_of_distinct_timestamps_witness :
    [newsRow 1 5, newsRow 2 3] = ([newsRow 1 5, newsRow 2 3] : List NewsAdmin) := by
  exact order_by_deterministic_of_distinct_timestamps
    [newsRow 1 5, newsRow 2 3] [newsRow 1 5, newsRow 2 3]
    [newsRow 1 5, newsRow 2 3]
    (by decide) ⟨by decide, by decide⟩ ⟨by decide, by decide⟩

end ChurchTalk

namespace ChurchTalk

/-- C5: on an owned church, `GET /news/get-news` answers every page ≥ 1
(no upper-bound validation); it computes offset = (page-1)*per_page,
returns next_page = page+1 exactly when offset + returned_count <
total_count, prev_page = page-1 exactly when page > 1; and a page beyond
the end yields an empty item list with next_page absent and prev_page
still populated whenever page > 1. -/
theorem get_news_page_pointers
    (db : DB) (admin : User) (church_id page per_page : Nat)
    (ordered : List NewsAdmin) (c : Church)
    (hp : 1 ≤ page)
    (hown : ensure_church_owned db church_id admin.id = .ok c) :
    ∃ r, get_NewsAdmin db ordered church_id page per_page admin = .ok r ∧
      r.newsList.offset = (page - 1) * per_page ∧
      r.offset = (page - 1) * per_page ∧
      (r.newsList.nextPage = some (page + 1) ↔
        (page - 1) * per_page + r.newsList.itemsReceived < ordered.length) ∧
      (r.newsList.nextPage = none ↔
        ¬ ((page - 1) * per_page + r.newsList.itemsReceived < ordered.length)) ∧
      (r.newsList.prevPage = some (page - 1) ↔ 1 < page) ∧
      (r.newsList.prevPage = none ↔ page = 1) ∧
      (ordered.length ≤ (page - 1) * per_page →
        r.newsList.items = [] ∧ r.newsList.nextPage = none ∧
        (1 < page → r.newsList.prevPage = some (page - 1))) := by
  unfold get_NewsAdmin
  simp only [hown]
  refine ⟨_, rfl, rfl, rfl, ?_, ?_, ?_, ?_, ?_⟩
  · by_cases h : (page - 1) * per_page +
        (((ordered.drop ((page - 1) * per_page)).take per_page).map newsOut).length
        < ordered.length
    · simp [h]
    · simp [h]
  · by_cases h : (page - 1) * per_page +
        (((ordered.drop ((page - 1) * per_page)).take per_page).map newsOut).length
        < ordered.length
    · simp [h]
    · simp [h]
  · by_cases h : 1 < page
    · simp [h]
    · have hp1 : page = 1 := by omega
      simp [h, hp1]
  · by_cases h : 1 < page
    · have : page ≠ 1 := by omega
      simp [h, this]
    · have hp1 : page = 1 := by omega
      simp [h, hp1]
  · intro hbeyond
    have hnil : ordered.drop ((page - 1) * per_page) = [] :=
      List.drop_eq_nil_of_le hbeyond
    refine ⟨by simp [hnil], ?_, ?_⟩
    · simp [hnil]
      omega
    · intro hgt
      simp [hgt]

/-- Witness for C5 on the sample store: page 5 at per_page 2 over the 3
sample rows lies beyond the end, so the item list is empty, next_page is
absent and prev_page is still 4. -/
theorem get_news_page_pointers_witness :
    ∃ r, get_NewsAdmin dbSample [newsRow 1 5, newsRow 2 3, newsRow 3 2]
        10 5 2 adminOne = .ok r ∧
      r.newsList.items = [] ∧ r.newsList.nextPage = none ∧
      r.newsList.prevPage = some 4 := by
  obtain ⟨r, hok, -, -, -, -, -, -, hbeyond⟩ :=
    get_news_page_pointers dbSample adminOne 10 5 2
      [newsRow 1 5, newsRow 2 3, newsRow 3 2] churchTen (by decide) (by rfl)
  obtain ⟨hitems, hnext, hprev⟩ := hbeyond (by decide)
  exact ⟨r, hok, hitems, hnext, hprev (by decide)⟩

end ChurchTalk

namespace ChurchTalk

/-- Helper: zero items means zero pages. -/
theorem totalPages_zero (K : Nat) (hK : 0 < K) : totalPages 0 K = 0 := by
  unfold totalPages
  apply Nat.div_eq_of_lt
  omega

/-- Helper: a nonempty collection is one page plus the pages of the rest. -/
theorem totalPages_step (K : Nat) (hK : 0 < K) (m : Nat) (hm : 0 < m) :
    totalPages m K = totalPages (m - K) K + 1 := by
  unfold totalPages
  by_cases hc : m ≤ K
  · have h1 : m - K = 0 := by omega
    rw [h1]
    have h2 : (0 + K - 1) / K = 0 := Nat.div_eq_of_lt (by omega)
    rw [h2]
    have h3 : m + K - 1 = (m - 1) + K := by omega
    rw [h3, Nat.add_div_right _ hK]
    have h4 : (m - 1) / K = 0 := Nat.div_eq_of_lt (by omega)
    omega
  · have h1 : m + K - 1 = (m - 1) + K := by omega
    have h2 : m - K + K - 1 = (m - K - 1) + K := by omega
    rw [h1, h2, Nat.add_div_right _ hK, Nat.add_div_right _ hK]
    have h3 : m - 1 = (m - K - 1) + K := by omega
    rw [h3, Nat.add_div_right _ hK]

/-- Helper: the page windows of size K, for pages 0..ceil(N/K)-1, laid end
to end rebuild the whole list - the partition core of the pagination. -/
theorem pages_join {α : Type} (K : Nat) (hK : 0 < K) :
    ∀ (n : Nat) (l : List α), l.length = n →
      ((List.range (totalPages l.length K)).map
        (fun i => (l.drop (i * K)).take K)).flatten = l := by
  intro n
  induction n using Nat.strong_induction_on with
  | _ n ih =>
    intro l hl
    by_cases hnil : l = []
    · subst hnil
      simp [totalPages_zero K hK]
    · have hm : 0 < l.length := List.length_pos.mpr hnil
      have hstep : totalPages l.length K
          = totalPages (l.drop K).length K + 1 := by
        rw [List.length_drop]
        exact totalPages_step K hK l.length hm
      have hfun : ((fun i => (l.drop (i * K)).take K) ∘ Nat.succ)
          = (fun i => ((l.drop K).drop (i * K)).take K) := by
        funext i
        simp only [Function.comp_apply, List.drop_drop]
        rw [Nat.succ_mul, Nat.add_comm (i * K) K]
      have hlt : (l.drop K).length < n := by
        rw [List.length_drop]
        omega
      rw [hstep, List.range_succ_eq_map, List.map_cons, List.flatten_cons,
        List.map_map, hfun, ih (l.drop K).length hlt (l.drop K) rfl]
      simp

/-- Helper: for a page within 1..ceil(N/K), the window is short of N
exactly on non-final pages, so the next-page pointer is absent exactly on
the last page. -/
theorem last_page_iff (N K p : Nat) (hK : 0 < K) (hp1 : 1 ≤ p)
    (hp2 : p ≤ totalPages N K) :
    (¬ ((p - 1) * K + min K (N - (p - 1) * K) < N)) ↔ p = totalPages N K := by
  have hdm := Nat.div_add_mod (N + K - 1) K
  have hr : (N + K - 1) % K < K := Nat.mod_lt _ hK
  have hP : totalPages N K = (N + K - 1) / K := rfl
  have h1 : N ≤ K * totalPages N K := by
    rw [hP]
    omega
  have h2 : K * totalPages N K ≤ N + K - 1 := by
    rw [hP]
    omega
  have h3 : (p - 1) * K = p * K - K := by
    rw [Nat.sub_mul, Nat.one_mul]
  have h4 : p * K ≤ K * totalPages N K := by
    rw [Nat.mul_comm K]
    exact Nat.mul_le_mul_right K hp2
  have h5 : p ≠ totalPages N K → p * K + K ≤ K * totalPages N K := by
    intro hne
    have hple : p + 1 ≤ totalPages N K := lt_of_le_of_ne hp2 hne
    calc p * K + K = (p + 1) * K := by rw [Nat.succ_mul]
      _ ≤ totalPages N K * K := Nat.mul_le_mul_right K hple
      _ = K * totalPages N K := Nat.mul_comm _ K
  have h6 : K ≤ p * K := by
    calc K = 1 * K := (Nat.one_mul K).symm
      _ ≤ p * K := Nat.mul_le_mul_right K hp1
  have h7 : p = totalPages N K → p * K = K * totalPages N K := by
    intro h
    rw [h, Nat.mul_comm]
  rw [h3]
  constructor
  · intro hno
    by_contra hne
    have h5' := h5 hne
    have hmin : min K (N - (p * K - K)) = K := by
      apply Nat.min_eq_left
      omega
    rw [hmin] at hno
    omega
  · intro hpe
    have hBA := h7 hpe
    have hmin : min K (N - (p * K - K)) = N - (p * K - K) := by
      apply Nat.min_eq_right
      omega
    rw [hmin]
    omega

end ChurchTalk

namespace ChurchTalk

/-- C3: for an owned church and per_page in [1,100], with no mutation
between calls, every page answers with the offset/limit window of the
ordered collection; the windows for pages 1..ceil(N/K) laid end to end
rebuild the full ordered collection exactly (no duplicates, no gaps), and
that collection is a permutation of the filtered news rows; next_page is
absent exactly on the last page and prev_page exactly on page 1. -/
theorem get_news_pagination_partition
    (db : DB) (admin : User) (church_id per_page : Nat)
    (ordered : List NewsAdmin) (c : Church)
    (hK1 : 1 ≤ per_page) (hK2 : per_page ≤ 100)
    (hord : OrderedByCreatedAtDesc (newsQuery db church_id admin.id) ordered)
    (hown : ensure_church_owned db church_id admin.id = .ok c) :
    (∀ page, ∃ r,
       get_NewsAdmin db ordered church_id page per_page admin = .ok r ∧
       r.newsList.items
         = ((ordered.drop ((page - 1) * per_page)).take per_page).map newsOut) ∧
    ((List.range (totalPages ordered.length per_page)).map
        (fun i => ((ordered.drop (i * per_page)).take per_page).map
          newsOut)).flatten
      = ordered.map newsOut ∧
    (ordered.map newsOut).Perm
      ((newsQuery db church_id admin.id).map newsOut) ∧
    (∀ page r, 1 ≤ page → page ≤ totalPages ordered.length per_page →
       get_NewsAdmin db ordered church_id page per_page admin = .ok r →
       ((r.newsList.nextPage = none ↔
          page = totalPages ordered.length per_page) ∧
        (r.newsList.prevPage = none ↔ page = 1))) := by
  refine ⟨?_, ?_, ?_, ?_⟩
  · intro page
    unfold get_NewsAdmin
    simp only [hown]
    exact ⟨_, rfl, rfl⟩
  · have hjoin := pages_join per_page (by omega) ordered.length ordered rfl
    calc ((List.range (totalPages ordered.length per_page)).map
          (fun i => ((ordered.drop (i * per_page)).take per_page).map
            newsOut)).flatten
        = (((List.range (totalPages ordered.length per_page)).map
            (fun i => (ordered.drop (i * per_page)).take per_page)).map
              (List.map newsOut)).flatten := by
          rw [List.map_map]
          rfl
      _ = (((List.range (totalPages ordered.length per_page)).map
            (fun i => (ordered.drop (i * per_page)).take per_page)).flatten).map
              newsOut := by
          rw [List.map_flatten]
      _ = ordered.map newsOut := by rw [hjoin]
  · exact List.Perm.map newsOut (hord.1).symm
  · intro page r hp1 hp2 hok
    unfold get_NewsAdmin at hok
    simp only [hown, Except.ok.injEq] at hok
    subst hok
    constructor
    · have hrecv : (((ordered.drop ((page - 1) * per_page)).take
          per_page).map newsOut).length
          = min per_page (ordered.length - (page - 1) * per_page) := by
        simp
      have hlast := last_page_iff ordered.length per_page page (by omega) hp1 hp2
      have hiff : ((page - 1) * per_page +
          (((ordered.drop ((page - 1) * per_page)).take per_page).map
            newsOut).length < ordered.length)
          ↔ ¬ (page = totalPages ordered.length per_page) := by
        rw [hrecv]
        constructor
        · intro h hpe
          exact (hlast.mpr hpe) h
        · intro hne
          by_contra hno
          exact hne (hlast.mp hno)
      by_cases hcond : (page - 1) * per_page +
          (((ordered.drop ((page - 1) * per_page)).take per_page).map
            newsOut).length < ordered.length
      · simp only [hcond, if_true, if_pos]
        simp only [hiff.mp hcond, iff_false]
        simp
      · simp only [if_neg hcond]
        have hpe : page = totalPages ordered.length per_page := by
          by_contra hne
          exact hcond (hiff.mpr hne)
        simp [hpe]
    · by_cases hgt : 1 < page
      · have hne : ¬ (page = 1) := by omega
        simp [hgt, hne]
      · have hpe : page = 1 := by omega
        simp [hgt, hpe]

/-- Witness for C3 on the sample store: three rows at per_page 2 make two
pages whose windows flatten back to the full mapped collection; page 2 is
the last page (next_page absent) and page 1 has prev_page absent. -/
theorem get_news_pagination_partition_witness :
    ((List.range (totalPages 3 2)).map
        (fun i => ((([newsRow 1 5, newsRow 2 3, newsRow 3 2] :
          List NewsAdmin).drop (i * 2)).take 2).map newsOut)).flatten
      = ([newsRow 1 5, newsRow 2 3, newsRow 3 2] :
          List NewsAdmin).map newsOut ∧
    (∃ r, get_NewsAdmin dbSample [newsRow 1 5, newsRow 2 3, newsRow 3 2]
        10 2 2 adminOne = .ok r ∧ r.newsList.nextPage = none) ∧
    (∃ r, get_NewsAdmin dbSample [newsRow 1 5, newsRow 2 3, newsRow 3 2]
        10 1 2 adminOne = .ok r ∧ r.newsList.prevPage = none) := by
  have h := get_news_pagination_partition dbSample adminOne 10 2
    [newsRow 1 5, newsRow 2 3, newsRow 3 2] churchTen (by decide) (by decide)
    ⟨by decide, by decide⟩ (by rfl)
  refine ⟨h.2.1, ?_, ?_⟩
  · obtain ⟨r, hok, -⟩ := h.1 2
    have hp := h.2.2.2 2 r (by decide) (by decide) hok
    exact ⟨r, hok, hp.1.mpr (by decide)⟩
  · obtain ⟨r, hok, -⟩ := h.1 1
    have hp := h.2.2.2 1 r (by decide) (by decide) hok
    exact ⟨r, hok, hp.2.mpr (by decide)⟩

end ChurchTalk
